import Mathlib

/-!
Shallow embedding of the knowledge-graph core of this repository:
`automation/graph/knowledge_graph.py` (SQLite-backed graph store) and
`automation/graph/event_handler.py` (GitHub event correlator).

Modelling conventions:
* SQLite tables become Lean lists kept in rowid (insertion) order.
  `INSERT OR REPLACE` on the `nodes` table deletes the conflicting row and
  appends a fresh one; `UPDATE` rewrites a row in place; `INSERT OR IGNORE`
  against the `UNIQUE(from_id, to_id, relationship)` constraint appends only
  when no row with the same triple exists.
* JSON property bags (Python dicts) become ordered association lists
  `List (String × Value)`; Python `dict.update` is `dictUpdate` below.
* `CURRENT_TIMESTAMP` becomes a monotone `Nat` counter `now` carried in the
  state; it advances whenever a row is stamped.
* Python `ValueError` becomes `Except String`; the raising operations return
  `Except.error msg` with the source's message text.
* Rows returned by queries without `ORDER BY` are produced in table order
  (`nodes` outer, `edges` inner for the join in `find_related`), matching
  SQLite's scan of small untuned tables; all set-level claims are independent
  of this choice.
-/

/-- A JSON-style property value: string, number, or list of strings
(the only shapes the event handler ever stores). -/
inductive Value where
  | s : String → Value
  | n : Nat → Value
  | ls : List String → Value
deriving DecidableEq, Repr

/-- A property bag: Python dict as an ordered association list. -/
abbrev Props := List (String × Value)

/-- First-occurrence lookup in a property bag (Python `d[k]` / `d.get(k)`;
bags built by the code never carry duplicate keys). -/
def lookupKV : Props → String → Option Value
  | [], _ => none
  | (k, v) :: rest, key => if k = key then some v else lookupKV rest key

/-- Python `d[k] = v`: overwrite the first binding of `k` in place,
or append when absent. -/
def insertKV : Props → String → Value → Props
  | [], k, v => [(k, v)]
  | (k', v') :: rest, k, v =>
      if k' = k then (k, v) :: rest else (k', v') :: insertKV rest k v

/-- Python `old.update(new)`: fold the supplied pairs into the bag. -/
def dictUpdate (old new : Props) : Props :=
  new.foldl (fun acc kv => insertKV acc kv.1 kv.2) old

/-- A row of the `nodes` table. -/
structure Node where
  id : String
  type : String
  properties : Props
  created_at : Nat
  updated_at : Nat
deriving DecidableEq, Repr

/-- A row of the `edges` table (`from_id`/`to_id` renamed: `from` is a Lean
keyword). -/
structure Edge where
  fromId : String
  toId : String
  relationship : String
  properties : Props
  created_at : Nat
deriving DecidableEq, Repr

/-- The persisted store plus the timestamp counter. -/
structure GraphState where
  nodes : List Node
  edges : List Edge
  now : Nat
deriving DecidableEq, Repr

/-- The store right after `_init_schema`: empty tables. -/
def graphInit : GraphState := { nodes := [], edges := [], now := 0 }

/-- `KnowledgeGraph.add_node`: build `full_id = f"{node_type}:{node_id}"` and
`INSERT OR REPLACE` the row (the old row with that id is dropped, the new row
is appended with fresh timestamps); returns the full id. -/
def add_node (s : GraphState) (node_type node_id : String) (properties : Props) :
    String × GraphState :=
  let full_id := node_type ++ ":" ++ node_id
  (full_id,
    { s with
      nodes := s.nodes.filter (fun n => decide ¬(n.id = full_id)) ++
        [{ id := full_id, type := node_type, properties := properties,
           created_at := s.now, updated_at := s.now }],
      now := s.now + 1 })

/-- `KnowledgeGraph.get_node`: point lookup by id. -/
def get_node (s : GraphState) (node_id : String) : Option Node :=
  s.nodes.find? (fun n => decide (n.id = node_id))

/-- `KnowledgeGraph.update_node`: raise `ValueError(f"Node not found: ...")`
when the node is absent; otherwise `dict.update` the decoded properties and
rewrite the row in place with a bumped `updated_at`. -/
def update_node (s : GraphState) (node_id : String) (properties : Props) :
    Except String GraphState :=
  match get_node s node_id with
  | none => Except.error ("Node not found: " ++ node_id)
  | some node =>
      let newProps := dictUpdate node.properties properties
      Except.ok
        { s with
          nodes := s.nodes.map (fun n =>
            if n.id = node_id then
              { n with properties := newProps, updated_at := s.now }
            else n),
          now := s.now + 1 }

/-- The `UNIQUE(from_id, to_id, relationship)` identity test. -/
def edgeMatches (e : Edge) (from_id to_id relationship : String) : Bool :=
  decide (e.fromId = from_id) && decide (e.toId = to_id) &&
    decide (e.relationship = relationship)

/-- `KnowledgeGraph.add_edge`: `INSERT OR IGNORE` under the unique
`(from_id, to_id, relationship)` constraint — a duplicate triple leaves the
table untouched, otherwise the row is appended. -/
def add_edge (s : GraphState) (from_id to_id relationship : String)
    (properties : Props) : GraphState :=
  if s.edges.any (fun e => edgeMatches e from_id to_id relationship) then s
  else
    { s with
      edges := s.edges ++
        [{ fromId := from_id, toId := to_id, relationship := relationship,
           properties := properties, created_at := s.now }],
      now := s.now + 1 }

/-- Relationship filter of `find_related`: absent filter accepts every edge. -/
def relFilterMatches (rel : Option String) (r : String) : Bool :=
  match rel with
  | none => true
  | some x => decide (r = x)

/-- `KnowledgeGraph.find_related`: the SQL join
`nodes n JOIN edges e ON (e.to_id = n.id OR e.from_id = n.id)
 WHERE (e.from_id = ? OR e.to_id = ?) [AND e.relationship = ?]` —
one result row per (node, qualifying edge) pair, node table scanned outermost.
(The Python trims each row to id/type/properties; the handlers read only those
fields, so the full `Node` is returned here.) -/
def find_related (s : GraphState) (node_id : String) (rel : Option String) :
    List Node :=
  s.nodes.flatMap (fun n =>
    (s.edges.filter (fun e =>
      (decide (e.toId = n.id) || decide (e.fromId = n.id)) &&
      (decide (e.fromId = node_id) || decide (e.toId = node_id)) &&
      relFilterMatches rel e.relationship)).map (fun _ => n))

/-- One `while to_visit:` loop of `KnowledgeGraph.find_dependents`, with an
explicit fuel bound standing for the unbounded Python loop (`none` = fuel
exhausted; `fdLoop_isSome` below shows the fuel chosen by `find_dependents`
always suffices). Pop the FIFO head; skip it when already visited or at
depth `>= max_depth`; otherwise mark it visited and append every outgoing
target not yet visited to both the result and the frontier. -/
def fdLoop (g : List Edge) (max_depth : Nat) :
    Nat → List String → List (String × Nat) → List String → Option (List String)
  | _, _, [], dependents => some dependents
  | 0, _, _ :: _, _ => none
  | fuel + 1, visited, (current, depth) :: rest, dependents =>
      if current ∈ visited ∨ max_depth ≤ depth then
        fdLoop g max_depth fuel visited rest dependents
      else
        let visited' := current :: visited
        let outs := (g.filter (fun e => decide (e.fromId = current))).map Edge.toId
        let news := outs.filter (fun v => decide ¬(v ∈ visited'))
        fdLoop g max_depth fuel visited'
          (rest ++ news.map (fun v => (v, depth + 1))) (dependents ++ news)

/-- `KnowledgeGraph.find_dependents`: forward breadth-first walk from
`node_id`, default depth bound 3. The loop runs at most `1 + |edges|`
iterations (each iteration pops one frontier entry and entries are enqueued
at most once per edge), so this fuel is always sufficient. -/
def find_dependents (s : GraphState) (node_id : String) (max_depth : Nat := 3) :
    Option (List String) :=
  fdLoop s.edges max_depth (s.edges.length + 1) [] [(node_id, 0)] []

/-! ## Text extraction (`GitHubEventHandler`)

The two regular expressions of the source are embedded as explicit scanners
over `List Char`, faithful to Python `re` semantics for these patterns
(leftmost scan, ordered alternation, greedy quantifiers with backtracking of
the character class, non-overlapping `findall` resuming after each match).
ASCII suffices for the texts the correlator sees. -/

/-- `l` starts with `p` (literal match). -/
def lstartsWith : List Char → List Char → Bool
  | _, [] => true
  | [], _ :: _ => false
  | c :: cs, d :: ds => c == d && lstartsWith cs ds

/-- `needle` occurs somewhere in `hay` (Python `needle in hay`). -/
def containsSub (hay needle : List Char) : Bool :=
  match hay with
  | [] => needle.isEmpty
  | _ :: rest => lstartsWith hay needle || containsSub rest needle

/-- Python `str.lower()` on the character list. -/
def lowerList (l : List Char) : List Char := l.map Char.toLower

/-- Regex `\w` (ASCII part). -/
def isWordChar (c : Char) : Bool := c.isAlpha || c.isDigit || c == '_'

/-- The character class `[\w/\-]` of the file-path pattern. -/
def isClassChar (c : Char) : Bool := isWordChar c || c == '/' || c == '-'

/-- Regex `\s` (ASCII part). -/
def isSpaceChar (c : Char) : Bool :=
  c == ' ' || c == '\t' || c == '\n' || c == '\r' || c == '\x0b' || c == '\x0c'

/-- The `(?:md|py|yaml)` alternation, in regex order. -/
def extAlternatives : List (List Char) := [['m', 'd'], ['p', 'y'], ['y', 'a', 'm', 'l']]

/-- Try to match `\.(?:md|py|yaml)` at the head of `l`; return the extension
and the remaining text. -/
def tryExtAt (l : List Char) : Option (List Char × List Char) :=
  match l with
  | '.' :: r =>
      match extAlternatives.find? (fun ext => lstartsWith r ext) with
      | some ext => some (ext, r.drop ext.length)
      | none => none
  | _ => none

/-- Greedy backtracking of the `[\w/\-]+` class: `revKept` is the class run
still kept, reversed; chars move back onto `rest` until `\.(?:md|py|yaml)`
matches (at least one class char must remain). Returns the matched tail
(class run, dot, extension) and the text after the match. -/
def backtrackExt : List Char → List Char → Option (List Char × List Char)
  | [], _ => none
  | c :: rk, rest =>
      match tryExtAt rest with
      | some (ext, after) => some ((c :: rk).reverse ++ '.' :: ext, after)
      | none => backtrackExt rk (c :: rest)

/-- Try the pattern `(?:docs|skills)/[\w/\-]+\.(?:md|py|yaml)` anchored at the
head of `l`; return the full match and the text after it. -/
def matchFileAt (l : List Char) : Option (List Char × List Char) :=
  let tryLead : List Char → Option (List Char × List Char) := fun lead =>
    if lstartsWith l lead then
      let after := l.drop lead.length
      let run := after.takeWhile isClassChar
      let rest := after.dropWhile isClassChar
      match backtrackExt run.reverse rest with
      | some (m, after2) => some (lead ++ m, after2)
      | none => none
    else none
  match tryLead "docs/".toList with
  | some r => some r
  | none => tryLead "skills/".toList

/-- `re.findall` of the file pattern: scan left to right, non-overlapping,
resume after each match. Fuel `= text length` suffices since every step
consumes at least one character. -/
def scanFilesAux : Nat → List Char → List (List Char)
  | 0, _ => []
  | _, [] => []
  | fuel + 1, c :: r =>
      match matchFileAt (c :: r) with
      | some (m, after) => m :: scanFilesAux fuel after
      | none => scanFilesAux fuel r

/-- The `fixes|closes|resolves` alternation, in regex order. -/
def fixVerbs : List (List Char) := ["fixes".toList, "closes".toList, "resolves".toList]

/-- Try `(?:fixes|closes|resolves)\s+#(\d+)` anchored at the head of `l`;
return the captured digit group and the text after the match. -/
def matchFixAt (l : List Char) : Option (List Char × List Char) :=
  match fixVerbs.find? (fun v => lstartsWith l v) with
  | some v =>
      let after := l.drop v.length
      let ws := after.takeWhile isSpaceChar
      let rest1 := after.dropWhile isSpaceChar
      if ws.isEmpty then none
      else
        match rest1 with
        | '#' :: r2 =>
            let digits := r2.takeWhile Char.isDigit
            if digits.isEmpty then none
            else some (digits, r2.dropWhile Char.isDigit)
        | _ => none
  | none => none

/-- `re.findall` of the fixes pattern (captured groups, in match order,
duplicates kept). Fuel as in `scanFilesAux`. -/
def scanFixesAux : Nat → List Char → List (List Char)
  | 0, _ => []
  | _, [] => []
  | fuel + 1, c :: r =>
      match matchFixAt (c :: r) with
      | some (m, after) => m :: scanFixesAux fuel after
      | none => scanFixesAux fuel r

/-- Keep the first occurrence of each element, skipping ones already seen. -/
def dedupGo : List String → List String → List String
  | _, [] => []
  | seen, x :: rest =>
      if x ∈ seen then dedupGo seen rest else x :: dedupGo (x :: seen) rest

/-- Keep the first occurrence of each element (Python `set` built from the
match list; iteration order chosen as first occurrence). -/
def dedupKeepFirst (l : List String) : List String := dedupGo [] l

/-- The hardcoded keyword → concept-id table of
`GitHubEventHandler.extract_concepts_from_text`, in source order. -/
def concept_keywords : List (String × String) :=
  [("Storage API", "Concept:StorageAPI"),
   ("Jobs API", "Concept:JobsAPI"),
   ("Stack URL", "Concept:StackURL"),
   ("Project ID", "Concept:ProjectID"),
   ("Token", "Concept:Authentication"),
   ("Input Mapping", "Concept:InputMapping"),
   ("Output Mapping", "Concept:OutputMapping"),
   ("Custom Python", "Concept:CustomPython"),
   ("Streamlit", "Concept:Streamlit"),
   ("Flow", "Concept:Flows")]

/-- `GitHubEventHandler.extract_concepts_from_text`: case-insensitive
substring scan of the keyword table; the resulting Python set is modelled as
a list in table order (each keyword contributes at most once, so it is
duplicate-free). -/
def extract_concepts_from_text (text : String) : List String :=
  let tl := lowerList text.toList
  concept_keywords.filterMap (fun kw =>
    if containsSub tl (lowerList kw.1.toList) then some kw.2 else none)

/-- `GitHubEventHandler.extract_files_from_text`: `re.findall` of the path
pattern, collected into a set (modelled as the deduplicated match list in
first-occurrence order). -/
def extract_files_from_text (text : String) : List String :=
  dedupKeepFirst
    ((scanFilesAux text.toList.length text.toList).map (fun cs => String.mk cs))

/-! ## Event correlator (`GitHubEventHandler`) -/

/-- Python `s.split(":")[1]`: the segment between the first and second colon. -/
def afterColon (s : String) : String :=
  String.mk (((s.toList.dropWhile (fun c => !(c == ':'))).drop 1).takeWhile
    (fun c => !(c == ':')))

/-- The issue payload fields the handler reads (`labels` models the list of
`label["name"]` strings; `body` is `None`-able, read via `.get("body", "")`). -/
structure IssueData where
  title : String
  body : Option String
  labels : List String
  html_url : String
  created_at : String
deriving DecidableEq, Repr

/-- The PR payload fields the handler reads; `changed_files` is `none` when
the `"changed_files"` key is absent, else the list of `file_info["filename"]`
strings; `additions`/`deletions` default to 0 via `.get`. -/
structure PRData where
  title : String
  body : Option String
  html_url : String
  created_at : String
  additions : Nat
  deletions : Nat
  changed_files : Option (List String)
deriving DecidableEq, Repr

/-- `GitHubEventHandler.handle_issue_created`: upsert the Issue node with
status `"open"`, then for every extracted concept upsert the Concept node and
an `ABOUT` edge, then for every extracted file path upsert the Document node
and an `ABOUT` edge. (The `print` trace lines are not modelled.) -/
def handle_issue_created (s : GraphState) (issue_number : Nat) (d : IssueData) :
    GraphState :=
  let issue := add_node s "Issue" (Nat.repr issue_number)
    [("number", Value.n issue_number), ("title", Value.s d.title),
     ("body", Value.s (d.body.getD "")), ("status", Value.s "open"),
     ("labels", Value.ls d.labels), ("url", Value.s d.html_url),
     ("created_at", Value.s d.created_at)]
  let issue_id := issue.1
  let full_text := d.title ++ " " ++ d.body.getD ""
  let concepts := extract_concepts_from_text full_text
  let s2 := concepts.foldl (fun acc concept_id =>
    let concept_name := afterColon concept_id
    let c := add_node acc "Concept" concept_name [("name", Value.s concept_name)]
    add_edge c.2 issue_id concept_id "ABOUT" []) issue.2
  let files := extract_files_from_text full_text
  files.foldl (fun acc file_path =>
    let doc := add_node acc "Document" file_path [("path", Value.s file_path)]
    add_edge doc.2 issue_id ("Document:" ++ file_path) "ABOUT" []) s2

/-- `GitHubEventHandler.handle_issue_closed`: merge-update the Issue node's
status to `"closed"`; the `ValueError` of a missing node propagates. -/
def handle_issue_closed (s : GraphState) (issue_number : Nat) :
    Except String GraphState :=
  update_node s ("Issue:" ++ Nat.repr issue_number) [("status", Value.s "closed")]

/-- `GitHubEventHandler.handle_pr_created`: upsert the PullRequest node with
status `"open"`, add a `FIXED_BY` edge from `Issue:<n>` for every
`fixes|closes|resolves #<n>` match in the lowercased title+body, and — when a
changed-files list is present — upsert a Document node and a `MODIFIES` edge
per filename. -/
def handle_pr_created (s : GraphState) (pr_number : Nat) (d : PRData) :
    GraphState :=
  let pr := add_node s "PullRequest" (Nat.repr pr_number)
    [("number", Value.n pr_number), ("title", Value.s d.title),
     ("body", Value.s (d.body.getD "")), ("status", Value.s "open"),
     ("url", Value.s d.html_url), ("created_at", Value.s d.created_at),
     ("additions", Value.n d.additions), ("deletions", Value.n d.deletions)]
  let pr_id := pr.1
  let full_text := d.title ++ " " ++ d.body.getD ""
  let lowered := lowerList full_text.toList
  let fixMatches := (scanFixesAux lowered.length lowered).map (fun cs => String.mk cs)
  let s2 := fixMatches.foldl (fun acc issue_num =>
    add_edge acc ("Issue:" ++ issue_num) pr_id "FIXED_BY" []) pr.2
  match d.changed_files with
  | none => s2
  | some files =>
      files.foldl (fun acc file_path =>
        let doc := add_node acc "Document" file_path [("path", Value.s file_path)]
        add_edge doc.2 pr_id ("Document:" ++ file_path) "MODIFIES" []) s2

/-- `GitHubEventHandler.handle_pr_merged`: merge-update the PR's status to
`"merged"`; close every Issue returned by
`find_related(pr_id, "FIXED_BY")` through the same `update_node` path as
`handle_issue_closed` (the log line then reads `properties["number"]`, whose
absence would raise `KeyError`); finally collect, per Document returned by
`find_related(pr_id, "MODIFIES")`, every dependent whose id starts with
`"Skill:"` into a deduplicated impact set (read-only). Returns the final
state and the impact set. The unreachable `none` branch of `find_dependents`
(fuel exhaustion, ruled out by `fdLoop_isSome`) contributes nothing. -/
def handle_pr_merged (s : GraphState) (pr_number : Nat) :
    Except String (GraphState × List String) := do
  let pr_id := "PullRequest:" ++ Nat.repr pr_number
  let s1 ← update_node s pr_id [("status", Value.s "merged")]
  let related := find_related s1 pr_id (some "FIXED_BY")
  let s2 ← related.foldlM (fun acc node =>
    if node.type = "Issue" then do
      let acc' ← update_node acc node.id [("status", Value.s "closed")]
      match lookupKV node.properties "number" with
      | some _ => pure acc'
      | none => Except.error "KeyError: number"
    else pure acc) s1
  let modified_docs := find_related s2 pr_id (some "MODIFIES")
  let affected_skills := modified_docs.foldl (fun acc doc =>
    match find_dependents s2 doc.id with
    | some dependents =>
        dependents.foldl (fun a dep_id =>
          if dep_id.startsWith "Skill:" ∧ ¬(dep_id ∈ a) then a ++ [dep_id] else a) acc
    | none => acc) []
  pure (s2, affected_skills)

/-! ## Helper lemmas -/

/-- Rows kept by the id-differs filter never pass the id-equals filter. -/
theorem filter_ne_filter_eq_nil (f : String) (l : List Node) :
    ((l.filter (fun n => decide ¬(n.id = f))).filter
      (fun n => decide (n.id = f))) = [] := by
  induction l with
  | nil => rfl
  | cons a l ih =>
      by_cases h : a.id = f <;> simp [List.filter_cons, h, ih]

/-- `find?` for an id finds nothing among the rows that id was filtered out of. -/
theorem find?_filter_ne_none (f : String) (l : List Node) :
    ((l.filter (fun n => decide ¬(n.id = f))).find?
      (fun n => decide (n.id = f))) = none := by
  induction l with
  | nil => rfl
  | cons a l ih =>
      by_cases h : a.id = f <;> simp [List.filter_cons, List.find?_cons, h, ih]

/-- Lookup after a single in-place insert. -/
theorem lookup_insertKV (old : Props) (k0 : String) (v0 : Value) (key : String) :
    lookupKV (insertKV old k0 v0) key =
      if k0 = key then some v0 else lookupKV old key := by
  induction old with
  | nil => simp [insertKV, lookupKV]
  | cons kv rest ih =>
      obtain ⟨k', v'⟩ := kv
      by_cases h : k' = k0
      · subst h
        by_cases hk : k' = key <;> simp [insertKV, lookupKV, hk]
      · by_cases hk : k' = key
        · subst hk
          have : ¬ k0 = k' := fun hh => h hh.symm
          simp [insertKV, lookupKV, h, this]
        · simp [insertKV, lookupKV, h, hk, ih]

/-- A key absent from a bag's key list looks up to nothing. -/
theorem lookup_none_of_not_mem (new : Props) (key : String)
    (h : ¬ key ∈ new.map Prod.fst) : lookupKV new key = none := by
  induction new with
  | nil => rfl
  | cons kv rest ih =>
      simp only [List.map_cons, List.mem_cons] at h
      push_neg at h
      have : ¬ kv.1 = key := fun hh => h.1 (hh ▸ rfl)
      obtain ⟨k, v⟩ := kv
      simp only [lookupKV, if_neg this]
      exact ih h.2

/-- Python `dict.update` semantics at the lookup level: supplied keys win,
all other keys keep their old binding (the supplied bag has unique keys, as
every Python dict does). -/
theorem lookup_dictUpdate (old new : Props) (hnodup : (new.map Prod.fst).Nodup)
    (key : String) :
    lookupKV (dictUpdate old new) key =
      (lookupKV new key).or (lookupKV old key) := by
  induction new generalizing old with
  | nil => simp [dictUpdate, lookupKV]
  | cons kv rest ih =>
      obtain ⟨k0, v0⟩ := kv
      simp only [List.map_cons, List.nodup_cons] at hnodup
      have step : dictUpdate old ((k0, v0) :: rest) =
          dictUpdate (insertKV old k0 v0) rest := rfl
      rw [step, ih _ hnodup.2, lookup_insertKV]
      by_cases h : k0 = key
      · subst h
        rw [lookup_none_of_not_mem rest k0 hnodup.1]
        simp [lookupKV]
      · simp [lookupKV, h]

/-- Mapping an id-preserving per-row update commutes with `find?` by id. -/
theorem find?_map_row_update (l : List Node) (node_id : String) (P : Props)
    (t : Nat) :
    ((l.map (fun n => if n.id = node_id then
        { n with properties := P, updated_at := t } else n)).find?
      (fun n => decide (n.id = node_id))) =
    ((l.find? (fun n => decide (n.id = node_id))).map
      (fun n => if n.id = node_id then
        { n with properties := P, updated_at := t } else n)) := by
  induction l with
  | nil => rfl
  | cons a l ih =>
      by_cases h : a.id = node_id <;>
        simp [List.find?_cons, h, ih]

/-! ## Claims about the Graph Store -/

/-- C1: upserting `(type, localId)` twice leaves exactly one node with id
`"type:localId"`, its properties mapping is exactly the second mapping (full
replace, not merge), and both calls return that id (no error path exists). -/
theorem upsertNode_full_replace (s : GraphState) (node_type node_id : String)
    (P1 P2 : Props) :
    (add_node s node_type node_id P1).1 = node_type ++ ":" ++ node_id ∧
    (add_node (add_node s node_type node_id P1).2 node_type node_id P2).1 =
      node_type ++ ":" ++ node_id ∧
    (((add_node (add_node s node_type node_id P1).2 node_type node_id P2).2).nodes.filter
      (fun n => decide (n.id = node_type ++ ":" ++ node_id))).length = 1 ∧
    (get_node (add_node (add_node s node_type node_id P1).2 node_type node_id P2).2
      (node_type ++ ":" ++ node_id)).map Node.properties = some P2 := by
  refine ⟨rfl, rfl, ?_, ?_⟩
  · simp only [add_node, List.filter_append, filter_ne_filter_eq_nil]
    simp [List.filter_cons]
  · simp only [add_node, get_node, List.find?_append, find?_filter_ne_none]
    simp [List.find?_cons]

/-- C2: merge-updating an existing node shallow-merges exactly the supplied
keys into the current properties (supplied keys added or overwritten, every
other key keeps its value), and `updated_at` is bumped. -/
theorem mergeUpdateNode_shallow_merge (s : GraphState) (node_id : String)
    (node : Node) (newProps : Props)
    (hget : get_node s node_id = some node)
    (hnodup : (newProps.map Prod.fst).Nodup)
    (hclock : node.updated_at < s.now) :
    ∃ node',
      ((update_node s node_id newProps).toOption.bind
        (fun s' => get_node s' node_id)) = some node' ∧
      node'.properties = dictUpdate node.properties newProps ∧
      (∀ key, lookupKV node'.properties key =
        (lookupKV newProps key).or (lookupKV node.properties key)) ∧
      node.updated_at < node'.updated_at := by
  refine ⟨{ node with properties := dictUpdate node.properties newProps, updated_at := s.now }, ?_, rfl, ?_, hclock⟩
  · have hfind : s.nodes.find? (fun n => decide (n.id = node_id)) = some node := hget
    have hp := List.find?_some hfind
    have hid : node.id = node_id := of_decide_eq_true hp
    simp only [update_node, get_node, hfind, Except.toOption, Option.bind]
    rw [find?_map_row_update, hfind]
    simp [hid]
  · intro key
    exact lookup_dictUpdate node.properties newProps hnodup key

/-- Concrete store for the C2 witness: `upsertNode("Issue","1",{title:"B"})`. -/
def c2store : GraphState := (add_node graphInit "Issue" "1" [("title", Value.s "B")]).2

/-- The `Issue:1` row of `c2store`. -/
def c2node : Node :=
  { id := "Issue:1", type := "Issue", properties := [("title", Value.s "B")],
    created_at := 0, updated_at := 0 }

/-- Witness for C2 at the spec's own example:
`mergeUpdateNode("Issue:1", {status:"closed"})` after
`upsertNode("Issue","1",{title:"B"})`. -/
theorem mergeUpdateNode_shallow_merge_witness :
    (get_node c2store "Issue:1" = some c2node ∧
      (([("status", Value.s "closed")] : Props).map Prod.fst).Nodup ∧
      c2node.updated_at < c2store.now) ∧
    (∃ node',
      ((update_node c2store "Issue:1" [("status", Value.s "closed")]).toOption.bind
        (fun s' => get_node s' "Issue:1")) = some node' ∧
      node'.properties = dictUpdate c2node.properties [("status", Value.s "closed")] ∧
      (∀ key, lookupKV node'.properties key =
        (lookupKV ([("status", Value.s "closed")] : Props) key).or
          (lookupKV c2node.properties key)) ∧
      c2node.updated_at < node'.updated_at) :=
  ⟨⟨by decide, by decide, by decide⟩,
    mergeUpdateNode_shallow_merge c2store "Issue:1" c2node
      [("status", Value.s "closed")] (by decide) (by decide) (by decide)⟩

/-- C3: a merge-update of an absent node id — and hence `onIssueClosed` on a
never-created issue — returns the `Node not found` error; nothing is written
(no success state exists: the operation yields `Except.error`, so the caller
sees the failure and the store value passed in is the only one there is). -/
theorem notFound_propagates (s : GraphState) :
    (∀ node_id props, get_node s node_id = none →
      update_node s node_id props =
        Except.error ("Node not found: " ++ node_id)) ∧
    (∀ n : Nat, get_node s ("Issue:" ++ Nat.repr n) = none →
      handle_issue_closed s n =
        Except.error ("Node not found: " ++ ("Issue:" ++ Nat.repr n))) := by
  constructor
  · intro node_id props h
    simp [update_node, h]
  · intro n h
    simp [handle_issue_closed, update_node, h]

/-- Witness for C3: `onIssueClosed(999)` on the empty store raises
`NotFound`. -/
theorem notFound_propagates_witness :
    get_node graphInit "Issue:999" = none ∧
    handle_issue_closed graphInit 999 =
      Except.error ("Node not found: " ++ ("Issue:" ++ Nat.repr 999)) :=
  ⟨rfl, (notFound_propagates graphInit).2 999 rfl⟩

/-- Number of stored edges with the given identity triple. -/
def edgeTripleCount (s : GraphState) (f t r : String) : Nat :=
  (s.edges.filter (fun e => edgeMatches e f t r)).length

/-- C4: inserting the same `(from, to, relationship)` twice leaves exactly
one such edge; the second insert is a silent no-op (the state is returned
unchanged, whatever properties it carries). -/
theorem insertEdge_idempotent (s : GraphState) (f t r : String) (p1 p2 : Props)
    (h : edgeTripleCount s f t r ≤ 1) :
    add_edge (add_edge s f t r p1) f t r p2 = add_edge s f t r p1 ∧
    edgeTripleCount (add_edge (add_edge s f t r p1) f t r p2) f t r = 1 := by
  have hmatch : edgeMatches
      { fromId := f, toId := t, relationship := r, properties := p1,
        created_at := s.now } f t r = true := by
    simp [edgeMatches]
  cases hany : s.edges.any (fun e => edgeMatches e f t r) with
  | true =>
      have h1 : add_edge s f t r p1 = s := by
        simp [add_edge, hany]
      have hpos : 1 ≤ edgeTripleCount s f t r := by
        obtain ⟨e, he, hpe⟩ := List.any_eq_true.mp hany
        have : e ∈ s.edges.filter (fun e => edgeMatches e f t r) :=
          List.mem_filter.mpr ⟨he, hpe⟩
        have := List.length_pos.mpr (List.ne_nil_of_mem this)
        simpa [edgeTripleCount] using this
      have h2 : add_edge s f t r p2 = s := by
        simp [add_edge, hany]
      rw [h1, h2]
      exact ⟨rfl, le_antisymm h hpos⟩
  | false =>
      have hzero : s.edges.filter (fun e => edgeMatches e f t r) = [] := by
        rw [List.filter_eq_nil_iff]
        intro e he
        have := List.any_eq_false.mp hany e he
        simpa using this
      constructor
      · simp [add_edge, hany, List.any_append, hmatch]
      · simp [add_edge, hany, List.any_append, hmatch, edgeTripleCount,
          List.filter_append, hzero, List.filter_cons]

/-- Witness for C4: inserting `(A, B, "ABOUT")` twice into the empty store
yields edge count 1 and an unchanged state on the second insert. -/
theorem insertEdge_idempotent_witness :
    edgeTripleCount graphInit "A" "B" "ABOUT" ≤ 1 ∧
    (add_edge (add_edge graphInit "A" "B" "ABOUT" []) "A" "B" "ABOUT" [] =
      add_edge graphInit "A" "B" "ABOUT" [] ∧
    edgeTripleCount (add_edge (add_edge graphInit "A" "B" "ABOUT" []) "A" "B" "ABOUT" [])
      "A" "B" "ABOUT" = 1) :=
  ⟨by decide, insertEdge_idempotent graphInit "A" "B" "ABOUT" [] [] (by decide)⟩

/-! ## Claims about the Traversal Engine -/

/-- Number of edges whose source has not been visited yet: together with the
frontier length this bounds the remaining iterations of the traversal loop. -/
def unvisitedEdges (g : List Edge) (visited : List String) : Nat :=
  (g.filter (fun e => decide ¬(e.fromId ∈ visited))).length

/-- Visiting `u` moves exactly the edges leaving `u` out of the unvisited
count. -/
theorem unvisited_split (g : List Edge) (visited : List String) (u : String)
    (hu : ¬ u ∈ visited) :
    unvisitedEdges g (u :: visited) +
      (g.filter (fun e => decide (e.fromId = u))).length =
    unvisitedEdges g visited := by
  induction g with
  | nil => rfl
  | cons e g ih =>
      simp only [unvisitedEdges] at ih ⊢
      rw [List.filter_cons, List.filter_cons, List.filter_cons]
      by_cases h1 : e.fromId = u
      · have h2 : ¬ e.fromId ∈ visited := h1 ▸ hu
        have e1 : ¬ ((decide ¬(e.fromId ∈ u :: visited)) = true) := by
          simp [List.mem_cons, h1]
        have e2 : (decide (e.fromId = u)) = true := by simp [h1]
        have e3 : (decide ¬(e.fromId ∈ visited)) = true := by simp [h2]
        rw [if_neg e1, if_pos e2, if_pos e3]
        simp only [List.length_cons]
        omega
      · by_cases h2 : e.fromId ∈ visited
        · have e1 : ¬ ((decide ¬(e.fromId ∈ u :: visited)) = true) := by
            simp [List.mem_cons, h2]
          have e2 : ¬ ((decide (e.fromId = u)) = true) := by simp [h1]
          have e3 : ¬ ((decide ¬(e.fromId ∈ visited)) = true) := by simp [h2]
          rw [if_neg e1, if_neg e2, if_neg e3]
          omega
        · have e1 : (decide ¬(e.fromId ∈ u :: visited)) = true := by
            simp [List.mem_cons, h1, h2]
          have e2 : ¬ ((decide (e.fromId = u)) = true) := by simp [h1]
          have e3 : (decide ¬(e.fromId ∈ visited)) = true := by simp [h2]
          rw [if_pos e1, if_neg e2, if_pos e3]
          simp only [List.length_cons]
          omega

/-- Fuel bound for the traversal loop: whenever the fuel covers the frontier
length plus the number of edges leaving unvisited nodes, the loop finishes
(every iteration strictly decreases that measure). This is the termination
argument of `find_dependents`: the visited set strictly grows, and each edge
enqueues a frontier entry at most once. -/
theorem fdLoop_isSome (g : List Edge) (max_depth : Nat) :
    ∀ (fuel : Nat) (visited : List String) (toVisit : List (String × Nat))
      (dependents : List String),
      toVisit.length + unvisitedEdges g visited ≤ fuel →
      (fdLoop g max_depth fuel visited toVisit dependents).isSome = true := by
  intro fuel
  induction fuel with
  | zero =>
      intro visited toVisit dependents h
      have h0 : toVisit.length = 0 := by omega
      have htv : toVisit = [] := List.length_eq_zero.mp h0
      subst htv
      simp [fdLoop]
  | succ n ih =>
      intro visited toVisit dependents h
      match toVisit with
      | [] => simp [fdLoop]
      | (current, depth) :: rest =>
          rw [fdLoop]
          by_cases hc : current ∈ visited ∨ max_depth ≤ depth
          · rw [if_pos hc]
            apply ih
            simp only [List.length_cons] at h
            omega
          · rw [if_neg hc]
            push_neg at hc
            apply ih
            have hsplit := unvisited_split g visited current hc.1
            have hnews : (((g.filter (fun e => decide (e.fromId = current))).map
                Edge.toId).filter
                  (fun v => decide ¬(v ∈ current :: visited))).length ≤
                (g.filter (fun e => decide (e.fromId = current))).length := by
              calc (((g.filter (fun e => decide (e.fromId = current))).map
                    Edge.toId).filter
                      (fun v => decide ¬(v ∈ current :: visited))).length
                  ≤ ((g.filter (fun e => decide (e.fromId = current))).map
                      Edge.toId).length := List.length_filter_le _ _
                _ = (g.filter (fun e => decide (e.fromId = current))).length :=
                    List.length_map _ _
            simp only [List.length_cons] at h
            simp only [List.length_append, List.length_map]
            omega

/-- The cyclic graph `A→B→C→A` of the spec's termination scenario (only the
edge table matters to the traversal). -/
def cycleGraph : GraphState :=
  add_edge (add_edge (add_edge graphInit "A" "B" "DEPENDS_ON" [])
    "B" "C" "DEPENDS_ON" []) "C" "A" "DEPENDS_ON" []

/-- C5: the traversal loop terminates on every finite graph, seed and depth
bound — the fuel `|edges| + 1` chosen by `find_dependents` always suffices,
cycles included — and on the cycle `A→B→C→A` with `maxDepth = 5` it returns
`B` and `C` exactly once each. -/
theorem findDependents_terminates :
    (∀ (s : GraphState) (node_id : String) (max_depth : Nat),
      (find_dependents s node_id max_depth).isSome = true) ∧
    find_dependents cycleGraph "A" 5 = some ["B", "C"] ∧
    ((find_dependents cycleGraph "A" 5).getD []).count "B" = 1 ∧
    ((find_dependents cycleGraph "A" 5).getD []).count "C" = 1 := by
  refine ⟨?_, by decide, by decide, by decide⟩
  intro s node_id max_depth
  apply fdLoop_isSome
  have hall : unvisitedEdges s.edges [] = s.edges.length := by
    simp [unvisitedEdges]
  simp only [List.length_cons, List.length_nil, hall]
  omega

/-- A single forward edge `A→B` (the seed has one outgoing edge). -/
def chainAB : GraphState := add_edge graphInit "A" "B" "ABOUT" []

/-- C8 counterexample: with edge `A→B` present, `findDependents("A", 0)`
returns the empty sequence, not the direct successor `B` — the seed's own
depth 0 is compared against `maxDepth` on dequeue and `0 >= 0` skips it. -/
theorem findDependents_depth_zero_cex :
    (chainAB.edges.filter (fun e => decide (e.fromId = "A"))).length = 1 ∧
    find_dependents chainAB "A" 0 = some [] ∧
    ¬ ("B" ∈ (find_dependents chainAB "A" 0).getD []) ∧
    find_dependents chainAB "A" 1 = some ["B"] := by
  decide

/-- C8 (amended): for every graph and seed, `findDependents(seed, 0)`
explores nothing and returns the empty sequence, because the seed's depth 0
already fails the `depth >= maxDepth` check; one hop requires `maxDepth ≥ 1`. -/
theorem findDependents_depth_zero (s : GraphState) (node_id : String) :
    find_dependents s node_id 0 = some [] := by
  simp [find_dependents, fdLoop]

/-- The diamond `A→B, A→C, B→D, C→D` (two distinct paths from `A` to `D`). -/
def diamondGraph : GraphState :=
  add_edge (add_edge (add_edge (add_edge graphInit "A" "B" "ABOUT" [])
    "A" "C" "ABOUT" []) "B" "D" "ABOUT" []) "C" "D" "ABOUT" []

/-- C10: a node reachable along two distinct paths is appended once per
discovering parent — the guard before appending consults only the visited
set, which grows on dequeue, so `findDependents("A", 3)` on the diamond
returns `[B, C, D, D]` with `D` twice. -/
theorem findDependents_duplicates :
    find_dependents diamondGraph "A" 3 = some ["B", "C", "D", "D"] ∧
    ((find_dependents diamondGraph "A" 3).getD []).count "D" = 2 := by
  decide

/-- Propositional reading of the join condition of `find_related`. -/
theorem relPred_eq (node_id aid : String) (rel : Option String) (e : Edge) :
    (((decide (e.toId = aid) || decide (e.fromId = aid)) &&
      (decide (e.fromId = node_id) || decide (e.toId = node_id)) &&
      relFilterMatches rel e.relationship) = true) ↔
    ((e.toId = aid ∨ e.fromId = aid) ∧ (e.fromId = node_id ∨ e.toId = node_id) ∧
      relFilterMatches rel e.relationship = true) := by
  simp [Bool.and_eq_true, Bool.or_eq_true, and_assoc]

/-- C9 (amended): `find_related` returns exactly the stored nodes that are an
endpoint of at least one edge incident to the queried node (restricted by the
relationship filter when supplied) — which includes the queried node itself
whenever it has a qualifying edge; the list carries one entry per
(node, qualifying edge) pair, so ids can repeat. -/
theorem findRelated_characterization (s : GraphState) (node_id : String)
    (rel : Option String) (n : Node) :
    n ∈ find_related s node_id rel ↔
      (n ∈ s.nodes ∧ ∃ e, e ∈ s.edges ∧
        (e.toId = n.id ∨ e.fromId = n.id) ∧
        (e.fromId = node_id ∨ e.toId = node_id) ∧
        relFilterMatches rel e.relationship = true) := by
  simp only [find_related, List.mem_flatMap, List.mem_map, List.mem_filter,
    relPred_eq]
  constructor
  · rintro ⟨a, ha, e, ⟨he, hp⟩, rfl⟩
    exact ⟨ha, e, he, hp⟩
  · rintro ⟨hn, e, he, hp⟩
    exact ⟨n, hn, e, ⟨he, hp⟩, rfl⟩

/-- Store with nodes `Node:A`, `Node:B` joined by two edges of different
relationships. -/
def c9store : GraphState :=
  add_edge (add_edge ((add_node ((add_node graphInit "Node" "A" []).2)
    "Node" "B" []).2) "Node:A" "Node:B" "ABOUT" []) "Node:A" "Node:B" "EXPLAINS" []

/-- C9 counterexample: with two edges `Node:A → Node:B` (relationships
`ABOUT` and `EXPLAINS`), `find_related("Node:A")` lists `Node:B` twice — and
also lists the queried node `Node:A` itself — so the result is not a
duplicate-free set of neighbors. -/
theorem findRelated_duplicates_cex :
    ((find_related c9store "Node:A" none).map Node.id) =
      ["Node:A", "Node:A", "Node:B", "Node:B"] ∧
    ((find_related c9store "Node:A" none).map Node.id).count "Node:B" = 2 ∧
    "Node:A" ∈ ((find_related c9store "Node:A" none).map Node.id) := by
  decide

/-! ## Claims about the Event Correlator scenarios -/

/-- The C7 store: `onIssueCreated(42, ...)` with the spec's payload (any url
and creation timestamp). -/
def c7graph (url ts : String) : GraphState :=
  handle_issue_created graphInit 42
    { title := "Storage API token error", body := some "See docs/keboola/auth.md",
      labels := [], html_url := url, created_at := ts }

/-- C7: the end-to-end extraction scenario. For any values of the remaining
required payload fields, `onIssueCreated(42, {title:"Storage API token
error", body:"See docs/keboola/auth.md", labels:[]})` creates `Issue:42`
with status `"open"`, the concept nodes `Concept:StorageAPI` (keyword
"Storage API") and `Concept:Authentication` (keyword "Token") and no other
Concept node, the document node `Document:docs/keboola/auth.md`, and exactly
the three `ABOUT` edges from `Issue:42` to those targets. -/
theorem issueCreated_extraction (url ts : String) :
    ((get_node (c7graph url ts) "Issue:42").map
      (fun n => lookupKV n.properties "status")) = some (some (Value.s "open")) ∧
    ((c7graph url ts).nodes.filter (fun n => decide (n.type = "Concept"))).map
      Node.id = ["Concept:StorageAPI", "Concept:Authentication"] ∧
    (get_node (c7graph url ts) "Document:docs/keboola/auth.md").map Node.type =
      some "Document" ∧
    (c7graph url ts).edges.map (fun e => (e.fromId, e.toId, e.relationship)) =
      [("Issue:42", "Concept:StorageAPI", "ABOUT"),
       ("Issue:42", "Concept:Authentication", "ABOUT"),
       ("Issue:42", "Document:docs/keboola/auth.md", "ABOUT")] :=
  ⟨rfl, rfl, rfl, rfl⟩

/-- The C6 issue payload: `Issue:42` created open (neutral text with no
keyword or file reference). -/
def c6issuePayload : IssueData :=
  { title := "Bug", body := some "", labels := [], html_url := "u42",
    created_at := "t1" }

/-- The C6 PR payload: body `"fixes #42"`, changed file
`docs/keboola/auth.md`. -/
def c6prPayload : PRData :=
  { title := "Fix", body := some "fixes #42", html_url := "u7",
    created_at := "t2", additions := 0, deletions := 0,
    changed_files := some ["docs/keboola/auth.md"] }

/-- The C6 store after `onIssueCreated(42, ...)` then `onPrCreated(7, ...)`. -/
def c6afterPr : GraphState :=
  handle_pr_created (handle_issue_created graphInit 42 c6issuePayload) 7
    c6prPayload

/-- The C6 result of `onPrMerged(7)`. -/
def c6merged : Except String (GraphState × List String) :=
  handle_pr_merged c6afterPr 7

/-- C6: the merge cascade. `onPrCreated(7, ...)` creates exactly the edges
`Issue:42 --FIXED_BY--> PullRequest:7` and `PullRequest:7 --MODIFIES-->
Document:docs/keboola/auth.md`; before the merge `Issue:42` is open; after
`onPrMerged(7)` the PR's status is `"merged"` and `Issue:42`'s properties are
unchanged except for `status`, now `"closed"`; and the resulting `Issue:42`
row is identical to the one produced by closing directly through
`onIssueClosed(42)` from the same intermediate state (same merge-update
path). -/
theorem prMerged_cascade :
    c6afterPr.edges.map (fun e => (e.fromId, e.toId, e.relationship)) =
      [("Issue:42", "PullRequest:7", "FIXED_BY"),
       ("PullRequest:7", "Document:docs/keboola/auth.md", "MODIFIES")] ∧
    ((get_node c6afterPr "Issue:42").map
      (fun n => lookupKV n.properties "status")) = some (some (Value.s "open")) ∧
    (c6merged.toOption.map (fun p =>
      ((get_node p.1 "PullRequest:7").map (fun n => lookupKV n.properties "status"),
       (get_node p.1 "Issue:42").map Node.properties))) =
      some (some (some (Value.s "merged")),
        some [("number", Value.n 42), ("title", Value.s "Bug"),
          ("body", Value.s ""), ("status", Value.s "closed"),
          ("labels", Value.ls []), ("url", Value.s "u42"),
          ("created_at", Value.s "t1")]) ∧
    (((update_node c6afterPr "PullRequest:7" [("status", Value.s "merged")]).toOption.bind
        (fun s3 => (handle_issue_closed s3 42).toOption)).bind
      (fun s4 => get_node s4 "Issue:42")) =
      c6merged.toOption.bind (fun p => get_node p.1 "Issue:42") := by
  refine ⟨by decide, by decide, by decide, by decide⟩
